import Mathlib

set_option autoImplicit false

/-!
Verification of the pointer core of `lurk-rs` (`src/ptr.rs`): the `RawPtr`,
`Ptr` and `ContPtr` addressing types, their constructors, classification
predicates, equality/hash contract and derived total order.
-/

/-- Modelled from the spec: the expression category tag vocabulary
(`crate::tag::ExprTag` is outside the provided source).  The spec names
cons, nil, character, function and number categories among the expression
categories; only the existence of distinct `Nil`, `Cons` and `Char`
categories matters to the claims below. -/
inductive ExprTag where
  | Nil
  | Cons
  | Sym
  | Fun
  | Num
  | Thunk
  | Str
  | Char
  | Comm
  | U64
  | Key
  deriving DecidableEq

/-- Modelled from the spec: the continuation category tag vocabulary
(`crate::tag::ContTag` is outside the provided source); the spec requires
a designated `Error` continuation category. -/
inductive ContTag where
  | Outermost
  | Call
  | Tail
  | Error
  | Terminal
  | Dummy
  deriving DecidableEq

/-- The internal untagged raw Store pointer (`RawPtr` in `src/ptr.rs`), a
closed three-variant union: the `Null` sentinel, an opaque commitment
index, and a resolved slot index.  `usize` payloads are modelled as `Nat`. -/
inductive RawPtr where
  | Null
  | Opaque (i : Nat)
  | Index (i : Nat)
  deriving DecidableEq

/-- `RawPtr::new`: construct a new raw pointer with the default `Index`
shape (the most common). -/
def RawPtr.new (p : Nat) : RawPtr := RawPtr.Index p

/-- `RawPtr::is_opaque`: check whether a raw pointer is `Opaque`. -/
def RawPtr.is_opaque : RawPtr → Bool
  | RawPtr.Opaque _ => true
  | _ => false

/-- `RawPtr::is_null`: check whether a raw pointer is `Null`. -/
def RawPtr.is_null : RawPtr → Bool
  | RawPtr.Null => true
  | _ => false

/-- `RawPtr::opaque_idx`: the payload index of an `Opaque` raw pointer,
`none` for the other shapes. -/
def RawPtr.opaque_idx : RawPtr → Option Nat
  | RawPtr.Opaque x => some x
  | _ => none

/-- `RawPtr::idx`: the payload index of an `Index` raw pointer, `none`
for the other shapes. -/
def RawPtr.idx : RawPtr → Option Nat
  | RawPtr.Index x => some x
  | _ => none

/-- The comparison derived by `#[derive(PartialOrd, Ord)]` on `RawPtr`:
variants compare in declaration order (`Null`, then `Opaque`, then
`Index`) and same-variant values compare by payload. -/
def RawPtr.cmp : RawPtr → RawPtr → Ordering
  | RawPtr.Null, RawPtr.Null => Ordering.eq
  | RawPtr.Null, RawPtr.Opaque _ => Ordering.lt
  | RawPtr.Null, RawPtr.Index _ => Ordering.lt
  | RawPtr.Opaque _, RawPtr.Null => Ordering.gt
  | RawPtr.Opaque i, RawPtr.Opaque j => compare i j
  | RawPtr.Opaque _, RawPtr.Index _ => Ordering.lt
  | RawPtr.Index _, RawPtr.Null => Ordering.gt
  | RawPtr.Index _, RawPtr.Opaque _ => Ordering.gt
  | RawPtr.Index i, RawPtr.Index j => compare i j

/-- The `<=` of the derived `PartialOrd`/`Ord` on `RawPtr`: the comparison
does not return `Greater`. -/
def RawPtr.le (a b : RawPtr) : Prop := ¬ RawPtr.cmp a b = Ordering.gt

/-- The `<` of the derived `PartialOrd`/`Ord` on `RawPtr`: the comparison
returns `Less`. -/
def RawPtr.lt (a b : RawPtr) : Prop := RawPtr.cmp a b = Ordering.lt

instance (a b : RawPtr) : Decidable (RawPtr.le a b) := by
  unfold RawPtr.le
  infer_instance

instance (a b : RawPtr) : Decidable (RawPtr.lt a b) := by
  unfold RawPtr.lt
  infer_instance

/-- The `Hash` derived on `RawPtr`, modelled as the sequence of words the
derived implementation feeds to the hasher: the variant discriminant
followed by the payload, if any. -/
def RawPtr.hashStream : RawPtr → List Nat
  | RawPtr.Null => [0]
  | RawPtr.Opaque i => [1, i]
  | RawPtr.Index i => [2, i]

/-- Modelled from the spec: expression tags are hashable; each category
hashes to a distinct code. -/
def ExprTag.code : ExprTag → Nat
  | ExprTag.Nil => 0
  | ExprTag.Cons => 1
  | ExprTag.Sym => 2
  | ExprTag.Fun => 3
  | ExprTag.Num => 4
  | ExprTag.Thunk => 5
  | ExprTag.Str => 6
  | ExprTag.Char => 7
  | ExprTag.Comm => 8
  | ExprTag.U64 => 9
  | ExprTag.Key => 10

/-- Modelled from the spec: continuation tags are hashable; each category
hashes to a distinct code. -/
def ContTag.code : ContTag → Nat
  | ContTag.Outermost => 0
  | ContTag.Call => 1
  | ContTag.Tail => 2
  | ContTag.Error => 3
  | ContTag.Terminal => 4
  | ContTag.Dummy => 5

/-- A `Store` pointer (`Ptr<F>` in `src/ptr.rs`): an expression tag, the
underlying raw pointer, and the zero-sized `PhantomData<F>` marker
(modelled as `Unit`) pinning the field instantiation `F`. -/
structure Ptr (F : Type) where
  tag : ExprTag
  raw : RawPtr
  _f : Unit

instance (F : Type) : DecidableEq (Ptr F) := by
  intro p q
  obtain ⟨pt, pr, pf⟩ := p
  obtain ⟨qt, qr, qf⟩ := q
  cases pf
  cases qf
  by_cases ht : pt = qt
  · by_cases hr : pr = qr
    · exact Decidable.isTrue (by rw [ht, hr])
    · exact Decidable.isFalse (fun h => hr (congrArg Ptr.raw h))
  · exact Decidable.isFalse (fun h => ht (congrArg Ptr.tag h))

/-- The manual `Hash` impl for `Ptr` (lines 67-73 of `src/ptr.rs`): feed
the tag to the hasher, then the raw pointer; the phantom field marker is
not consulted. -/
def Ptr.hashStream {F : Type} (p : Ptr F) : List Nat :=
  ExprTag.code p.tag :: RawPtr.hashStream p.raw

/-- `Ptr::is_nil`: the tag is the `Nil` category. -/
def Ptr.is_nil {F : Type} (p : Ptr F) : Bool :=
  match p.tag with
  | ExprTag.Nil => true
  | _ => false

/-- `Ptr::is_cons`: the tag is the `Cons` category. -/
def Ptr.is_cons {F : Type} (p : Ptr F) : Bool :=
  match p.tag with
  | ExprTag.Cons => true
  | _ => false

/-- `Ptr::is_atom`: the negation of `is_cons`. -/
def Ptr.is_atom {F : Type} (p : Ptr F) : Bool :=
  ! Ptr.is_cons p

/-- `Ptr::is_list`: the tag is the `Nil` or the `Cons` category. -/
def Ptr.is_list {F : Type} (p : Ptr F) : Bool :=
  match p.tag with
  | ExprTag.Nil => true
  | ExprTag.Cons => true
  | _ => false

/-- `Ptr::is_opaque`: delegates to the raw pointer's classification. -/
def Ptr.is_opaque {F : Type} (p : Ptr F) : Bool :=
  RawPtr.is_opaque p.raw

/-- `Ptr::as_cons`: the pointer itself if `is_cons` holds, else `none`. -/
def Ptr.as_cons {F : Type} (p : Ptr F) : Option (Ptr F) :=
  if Ptr.is_cons p then some p else none

/-- `Ptr::as_list`: the pointer itself if `is_list` holds, else `none`. -/
def Ptr.as_list {F : Type} (p : Ptr F) : Option (Ptr F) :=
  if Ptr.is_list p then some p else none

/-- `Ptr::index`: construct a `Ptr` from an index. -/
def Ptr.index {F : Type} (tag : ExprTag) (idx : Nat) : Ptr F :=
  ⟨tag, RawPtr.Index idx, ()⟩

/-- `Ptr::opaque`: construct a `Ptr` from an opaque index. -/
def Ptr.opaque {F : Type} (tag : ExprTag) (idx : Nat) : Ptr F :=
  ⟨tag, RawPtr.Opaque idx, ()⟩

/-- `Ptr::null`: construct a null `Ptr`. -/
def Ptr.null {F : Type} (tag : ExprTag) : Ptr F :=
  ⟨tag, RawPtr.Null, ()⟩

/-- `Ptr::cast`: relabel the pointer with a new tag, keeping the raw value
and the phantom marker unchanged. -/
def Ptr.cast {F : Type} (p : Ptr F) (tag : ExprTag) : Ptr F :=
  ⟨tag, p.raw, p._f⟩

/-- `impl From<char> for Ptr`: embed a character immediately, as an
`Index` payload holding its numeric code point (`u32::from(c) as usize`),
under the `Char` tag. -/
def Ptr.ofChar {F : Type} (c : Char) : Ptr F :=
  ⟨ExprTag.Char, RawPtr.Index c.toNat, ()⟩

/-- A pointer to a continuation (`ContPtr<F>` in `src/ptr.rs`): same shape
as `Ptr` but carrying a continuation tag. -/
structure ContPtr (F : Type) where
  tag : ContTag
  raw : RawPtr
  _f : Unit

instance (F : Type) : DecidableEq (ContPtr F) := by
  intro p q
  obtain ⟨pt, pr, pf⟩ := p
  obtain ⟨qt, qr, qf⟩ := q
  cases pf
  cases qf
  by_cases ht : pt = qt
  · by_cases hr : pr = qr
    · exact Decidable.isTrue (by rw [ht, hr])
    · exact Decidable.isFalse (fun h => hr (congrArg ContPtr.raw h))
  · exact Decidable.isFalse (fun h => ht (congrArg ContPtr.tag h))

/-- The manual `Hash` impl for `ContPtr` (lines 180-186 of `src/ptr.rs`):
feed the tag, then the raw pointer; the phantom marker is not consulted. -/
def ContPtr.hashStream {F : Type} (p : ContPtr F) : List Nat :=
  ContTag.code p.tag :: RawPtr.hashStream p.raw

/-- `ContPtr::new`: construct a `ContPtr` from a tag and an arbitrary raw
pointer, stored unchanged. -/
def ContPtr.new {F : Type} (tag : ContTag) (raw : RawPtr) : ContPtr F :=
  ⟨tag, raw, ()⟩

/-- `ContPtr::is_error`: the tag is the `Error` category. -/
def ContPtr.is_error {F : Type} (p : ContPtr F) : Bool :=
  match p.tag with
  | ContTag.Error => true
  | _ => false

/-- `ContPtr::index`: construct a `ContPtr` from an index. -/
def ContPtr.index {F : Type} (tag : ContTag) (idx : Nat) : ContPtr F :=
  ⟨tag, RawPtr.Index idx, ()⟩

/-- `ContPtr::opaque` exactly as written in the source (lines 208-214 of
`src/ptr.rs`): it builds an `Index`-shaped raw pointer, not an
`Opaque`-shaped one. -/
def ContPtr.opaque {F : Type} (tag : ContTag) (idx : Nat) : ContPtr F :=
  ⟨tag, RawPtr.Index idx, ()⟩

/-- `ContPtr::null`: construct a null `ContPtr`. -/
def ContPtr.null {F : Type} (tag : ContTag) : ContPtr F :=
  ⟨tag, RawPtr.Null, ()⟩

/-- Claim C1 counterexample: at the continuation tag `Outermost` and index
`0`, the continuation `opaque` constructor yields a pointer whose
`opaque_idx` is absent, whose `idx` is present with value `0`, and whose
raw opacity classification is `false` — contradicting the claim, which
demands `opaque_idx = some 0`, `idx = none` and opacity `true` for every
category tag, continuation tags included. -/
theorem claim1_counterexample :
    RawPtr.opaque_idx ( ContPtr.opaque ContTag.Outermost 0 : ContPtr Unit).raw = none
    ∧ RawPtr.idx ( ContPtr.opaque ContTag.Outermost 0 : ContPtr Unit).raw = some 0
    ∧ RawPtr.is_opaque ( ContPtr.opaque ContTag.Outermost 0 : ContPtr Unit).raw = false := by
  decide

/-- Claim C1 (amended): for every expression tag `t` and index `i`, the
expression pointer constructor `Ptr.opaque t i` yields a pointer whose
`opaque_idx` is present with value `i`, whose `idx` is absent, and whose
`is_opaque` is `true`; the continuation constructor of the same name is
excluded, since it builds an `Index`-shaped raw pointer instead. -/
theorem claim1_amended (F : Type) (t : ExprTag) (i : Nat) :
    RawPtr.opaque_idx ( Ptr.opaque t i : Ptr F).raw = some i
    ∧ RawPtr.idx ( Ptr.opaque t i : Ptr F).raw = none
    ∧ Ptr.is_opaque ( Ptr.opaque t i : Ptr F) = true :=
  ⟨rfl, rfl, rfl⟩

/-- Claim C2: for every continuation tag `t` and index `i`,
`ContPtr.opaque t i` produces a pointer whose raw value is the `Index i`
shape — so its `idx` is present with value `i` and its `RawPtr`-level
opacity classification is `false` — unlike `Ptr.opaque`, which produces
the `Opaque i` shape. -/
theorem claim2_contptr_makes_index_shape (F : Type) (t : ContTag) (i : Nat) :
    ( ContPtr.opaque t i : ContPtr F).raw = RawPtr.Index i
    ∧ RawPtr.idx ( ContPtr.opaque t i : ContPtr F).raw = some i
    ∧ RawPtr.is_opaque ( ContPtr.opaque t i : ContPtr F).raw = false
    ∧ ∀ (u : ExprTag), ( Ptr.opaque u i : Ptr F).raw = RawPtr.Opaque i :=
  ⟨rfl, rfl, rfl, fun _ => rfl⟩

/-- Claim C3: over one field instantiation `F`, two `Ptr`s (and two
`ContPtr`s) are equal iff their tags are equal and their raw values are
equal; the hash stream is exactly the tag's code followed by the raw
pointer's stream (tag then raw, never consulting the phantom field
marker), and equal pointers always produce equal hashes. -/
theorem claim3_eq_hash_contract (F : Type) (p q : Ptr F) (c d : ContPtr F) :
    (p = q ↔ p.tag = q.tag ∧ p.raw = q.raw)
    ∧ (c = d ↔ c.tag = d.tag ∧ c.raw = d.raw)
    ∧ Ptr.hashStream p = ExprTag.code p.tag :: RawPtr.hashStream p.raw
    ∧ ContPtr.hashStream c = ContTag.code c.tag :: RawPtr.hashStream c.raw
    ∧ (p = q → Ptr.hashStream p = Ptr.hashStream q)
    ∧ (c = d → ContPtr.hashStream c = ContPtr.hashStream d) := by
  obtain ⟨pt, pr, pf⟩ := p
  obtain ⟨qt, qr, qf⟩ := q
  obtain ⟨ct, cr, cf⟩ := c
  obtain ⟨dt, dr, df⟩ := d
  cases pf
  cases qf
  cases cf
  cases df
  refine ⟨?_, ?_, rfl, rfl,
    fun h => congrArg Ptr.hashStream h, fun h => congrArg ContPtr.hashStream h⟩
  · simp [Ptr.mk.injEq]
  · simp [ContPtr.mk.injEq]

/-- Witness for claim C3 at a concrete pair of equal pointers. -/
theorem claim3_witness :
    Ptr.hashStream (Ptr.index ExprTag.Cons 3 : Ptr Unit)
      = Ptr.hashStream (Ptr.index ExprTag.Cons 3 : Ptr Unit) :=
  (claim3_eq_hash_contract Unit (Ptr.index ExprTag.Cons 3) (Ptr.index ExprTag.Cons 3)
    (ContPtr.index ContTag.Error 0) (ContPtr.index ContTag.Error 0)).2.2.2.2.1 rfl

/-- Claim C4: the derived order on `RawPtr` is a total order (total,
antisymmetric, transitive) that compares variant first and payload
second: every `Null` precedes every `Opaque i`, every `Opaque i` precedes
every `Index j`, every `Null` precedes every `Index j`, and same-variant
values are ordered by their payload index.  Totality and antisymmetry
make sorting any multiset of raw pointers deterministic and repeatable. -/
theorem claim4_rawptr_total_order :
    (∀ a b : RawPtr, RawPtr.le a b ∨ RawPtr.le b a)
    ∧ (∀ a b : RawPtr, RawPtr.le a b → RawPtr.le b a → a = b)
    ∧ (∀ a b c : RawPtr, RawPtr.le a b → RawPtr.le b c → RawPtr.le a c)
    ∧ (∀ i : Nat, RawPtr.lt RawPtr.Null (RawPtr.Opaque i))
    ∧ (∀ i j : Nat, RawPtr.lt (RawPtr.Opaque i) (RawPtr.Index j))
    ∧ (∀ j : Nat, RawPtr.lt RawPtr.Null (RawPtr.Index j))
    ∧ (∀ i j : Nat, RawPtr.lt (RawPtr.Opaque i) (RawPtr.Opaque j) ↔ i < j)
    ∧ (∀ i j : Nat, RawPtr.lt (RawPtr.Index i) (RawPtr.Index j) ↔ i < j) := by
  refine ⟨?_, ?_, ?_, ?_, ?_, ?_, ?_, ?_⟩
  · intro a b
    cases a <;> cases b <;>
      simp [RawPtr.le, RawPtr.cmp, Nat.compare_eq_gt] <;> omega
  · intro a b hab hba
    cases a <;> cases b <;>
      simp_all [RawPtr.le, RawPtr.cmp, Nat.compare_eq_gt] <;> omega
  · intro a b c hab hbc
    cases a <;> cases b <;> cases c <;>
      simp_all [RawPtr.le, RawPtr.cmp, Nat.compare_eq_gt] <;> omega
  · intro i
    simp [RawPtr.lt, RawPtr.cmp]
  · intro i j
    simp [RawPtr.lt, RawPtr.cmp]
  · intro j
    simp [RawPtr.lt, RawPtr.cmp]
  · intro i j
    simp [RawPtr.lt, RawPtr.cmp, Nat.compare_eq_lt]
  · intro i j
    simp [RawPtr.lt, RawPtr.cmp, Nat.compare_eq_lt]

/-- Witness for claim C4: transitivity applied at concrete raw pointers. -/
theorem claim4_witness : RawPtr.le RawPtr.Null (RawPtr.Index 5) :=
  claim4_rawptr_total_order.2.2.1 RawPtr.Null (RawPtr.Opaque 3) (RawPtr.Index 5)
    (by decide) (by decide)

/-- Claim C5: for every category tag and index `i`, the `index`
constructor (of either pointer kind) yields a pointer whose `idx` is
present with value `i`, whose `opaque_idx` is absent and whose
`is_opaque` is `false`; and `RawPtr.new i` equals the `Index i` variant. -/
theorem claim5_index_ctor (F : Type) (t : ExprTag) (k : ContTag) (i : Nat) :
    RawPtr.idx (Ptr.index t i : Ptr F).raw = some i
    ∧ RawPtr.opaque_idx (Ptr.index t i : Ptr F).raw = none
    ∧ Ptr.is_opaque (Ptr.index t i : Ptr F) = false
    ∧ RawPtr.idx (ContPtr.index k i : ContPtr F).raw = some i
    ∧ RawPtr.opaque_idx (ContPtr.index k i : ContPtr F).raw = none
    ∧ RawPtr.is_opaque (ContPtr.index k i : ContPtr F).raw = false
    ∧ RawPtr.new i = RawPtr.Index i :=
  ⟨rfl, rfl, rfl, rfl, rfl, rfl, rfl⟩

/-- Claim C6: `cast` preserves the raw value exactly and replaces the tag
with the requested one; nothing else changes and no validation occurs. -/
theorem claim6_cast_preserves_raw (F : Type) (p : Ptr F) (t2 : ExprTag) :
    (Ptr.cast p t2).raw = p.raw ∧ (Ptr.cast p t2).tag = t2 :=
  ⟨rfl, rfl⟩

/-- Claim C7: converting a character `c` yields a pointer tagged with the
character category whose raw value is `Index` of `c`'s numeric code
point; reading `idx` back gives the code point, and the pointer is
classified as resolved, not opaque. -/
theorem claim7_char_embedding (F : Type) (c : Char) :
    (Ptr.ofChar c : Ptr F).tag = ExprTag.Char
    ∧ (Ptr.ofChar c : Ptr F).raw = RawPtr.Index c.toNat
    ∧ RawPtr.idx (Ptr.ofChar c : Ptr F).raw = some c.toNat
    ∧ Ptr.is_opaque (Ptr.ofChar c : Ptr F) = false :=
  ⟨rfl, rfl, rfl, rfl⟩

/-- Claim C8: `is_nil` holds iff the tag is `Nil`, `is_cons` iff the tag
is `Cons`, `is_list` iff the tag is `Nil` or `Cons`, and `is_atom` is the
boolean negation of `is_cons`; each characterization is purely in terms of
the tag, so all four predicates depend only on the tag. -/
theorem claim8_tag_predicates (F : Type) (p : Ptr F) :
    (Ptr.is_nil p = true ↔ p.tag = ExprTag.Nil)
    ∧ (Ptr.is_cons p = true ↔ p.tag = ExprTag.Cons)
    ∧ (Ptr.is_list p = true ↔ (p.tag = ExprTag.Nil ∨ p.tag = ExprTag.Cons))
    ∧ Ptr.is_atom p = (! Ptr.is_cons p) := by
  obtain ⟨t, r, u⟩ := p
  cases t <;>
    simp [Ptr.is_nil, Ptr.is_cons, Ptr.is_list, Ptr.is_atom]

/-- Claim C9: every raw pointer satisfies exactly one of the three shape
observations — `Null` (null, both indices absent, not opaque), `Index`
(`idx` present, `opaque_idx` absent, neither null nor opaque) or `Opaque`
(`opaque_idx` present, `idx` absent, not null, opaque); the three
disjuncts pin the observations to pairwise-incompatible values, so at
most one can hold, and in particular `idx` and `opaque_idx` are never
simultaneously present. -/
theorem claim9_rawptr_shape_trichotomy (r : RawPtr) :
    ((RawPtr.is_null r = true ∧ RawPtr.idx r = none ∧ RawPtr.opaque_idx r = none
        ∧ RawPtr.is_opaque r = false)
      ∨ ((∃ i, RawPtr.idx r = some i) ∧ RawPtr.opaque_idx r = none
        ∧ RawPtr.is_null r = false ∧ RawPtr.is_opaque r = false)
      ∨ ((∃ i, RawPtr.opaque_idx r = some i) ∧ RawPtr.idx r = none
        ∧ RawPtr.is_null r = false ∧ RawPtr.is_opaque r = true))
    ∧ ((RawPtr.idx r).isSome && (RawPtr.opaque_idx r).isSome) = false := by
  cases r <;>
    simp [RawPtr.is_null, RawPtr.idx, RawPtr.opaque_idx, RawPtr.is_opaque]

/-- Claim C10: `ContPtr.new t r` stores the given tag and raw pointer
unchanged, for an arbitrary raw pointer `r`; in particular an
`Opaque`-shaped continuation pointer is constructible through this path
even though `ContPtr.opaque` never produces one. -/
theorem claim10_contptr_new (F : Type) (t : ContTag) (r : RawPtr) :
    (ContPtr.new t r : ContPtr F).tag = t
    ∧ (ContPtr.new t r : ContPtr F).raw = r
    ∧ RawPtr.is_opaque (ContPtr.new t (RawPtr.Opaque 5) : ContPtr F).raw = true :=
  ⟨rfl, rfl, rfl⟩
